import Mathlib

/-!
Verification of the core of `validation_interface.py` (a human-in-the-loop
validation tool).  The Python program is shallowly embedded: JSON values
become the inductive `JValue`, dicts become association lists with
Python's insert-or-overwrite update, the `ValidationManager` object
becomes the structure `ManagerState`, and configuring the file system is
replaced by carrying the session file's parsed content in the state.
`random.shuffle` is modelled as the in-place Fisher-Yates loop CPython
implements, driven by an abstract deterministic generator.
-/

/-- JSON-like values manipulated by the program (the parsed content of the
data file and of nested task payloads). -/
inductive JValue where
  | str : String → JValue
  | num : Int → JValue
  | bool : Bool → JValue
  | null : JValue
  | arr : List JValue → JValue
  | obj : List (String × JValue) → JValue

mutual

/-- Decidable equality of JSON values (written out because automatic
derivation does not handle the nested lists). -/
def JValue.decEq : (a b : JValue) → Decidable (a = b)
  | .str x, .str y =>
      if h : x = y then isTrue (by rw [h]) else isFalse (by simp [h])
  | .str _, .num _ => isFalse (by simp)
  | .str _, .bool _ => isFalse (by simp)
  | .str _, .null => isFalse (by simp)
  | .str _, .arr _ => isFalse (by simp)
  | .str _, .obj _ => isFalse (by simp)
  | .num _, .str _ => isFalse (by simp)
  | .num x, .num y =>
      if h : x = y then isTrue (by rw [h]) else isFalse (by simp [h])
  | .num _, .bool _ => isFalse (by simp)
  | .num _, .null => isFalse (by simp)
  | .num _, .arr _ => isFalse (by simp)
  | .num _, .obj _ => isFalse (by simp)
  | .bool _, .str _ => isFalse (by simp)
  | .bool _, .num _ => isFalse (by simp)
  | .bool x, .bool y =>
      if h : x = y then isTrue (by rw [h]) else isFalse (by simp [h])
  | .bool _, .null => isFalse (by simp)
  | .bool _, .arr _ => isFalse (by simp)
  | .bool _, .obj _ => isFalse (by simp)
  | .null, .str _ => isFalse (by simp)
  | .null, .num _ => isFalse (by simp)
  | .null, .bool _ => isFalse (by simp)
  | .null, .null => isTrue rfl
  | .null, .arr _ => isFalse (by simp)
  | .null, .obj _ => isFalse (by simp)
  | .arr _, .str _ => isFalse (by simp)
  | .arr _, .num _ => isFalse (by simp)
  | .arr _, .bool _ => isFalse (by simp)
  | .arr _, .null => isFalse (by simp)
  | .arr xs, .arr ys =>
      match JValue.decEqList xs ys with
      | isTrue h => isTrue (by rw [h])
      | isFalse h => isFalse (by simp [h])
  | .arr _, .obj _ => isFalse (by simp)
  | .obj _, .str _ => isFalse (by simp)
  | .obj _, .num _ => isFalse (by simp)
  | .obj _, .bool _ => isFalse (by simp)
  | .obj _, .null => isFalse (by simp)
  | .obj _, .arr _ => isFalse (by simp)
  | .obj xs, .obj ys =>
      match JValue.decEqObj xs ys with
      | isTrue h => isTrue (by rw [h])
      | isFalse h => isFalse (by simp [h])

/-- Decidable equality of JSON arrays. -/
def JValue.decEqList : (a b : List JValue) → Decidable (a = b)
  | [], [] => isTrue rfl
  | [], _ :: _ => isFalse (by simp)
  | _ :: _, [] => isFalse (by simp)
  | x :: xs, y :: ys =>
      match JValue.decEq x y, JValue.decEqList xs ys with
      | isTrue h1, isTrue h2 => isTrue (by rw [h1, h2])
      | isFalse h1, _ => isFalse (by simp [h1])
      | isTrue _, isFalse h2 => isFalse (by simp [h2])

/-- Decidable equality of JSON object field lists. -/
def JValue.decEqObj : (a b : List (String × JValue)) → Decidable (a = b)
  | [], [] => isTrue rfl
  | [], _ :: _ => isFalse (by simp)
  | _ :: _, [] => isFalse (by simp)
  | (k1, v1) :: xs, (k2, v2) :: ys =>
      if hk : k1 = k2 then
        match JValue.decEq v1 v2, JValue.decEqObj xs ys with
        | isTrue h1, isTrue h2 => isTrue (by rw [hk, h1, h2])
        | isFalse h1, _ => isFalse (by simp [h1])
        | isTrue _, isFalse h2 => isFalse (by simp [h2])
      else isFalse (by simp [hk])

end

instance : DecidableEq JValue := JValue.decEq

namespace JValue

/-- Python truthiness of a JSON value (`if prediction.get('error')`):
`None`, `False`, `0`, `""`, `[]`, `{}` are falsy. -/
def truthy : JValue → Bool
  | .str s => s != ""
  | .num n => n != 0
  | .bool b => b
  | .null => false
  | .arr l => !l.isEmpty
  | .obj l => !l.isEmpty

end JValue

/-- Dict membership/lookup, `d.get(k)` / `k in d`: association-list lookup.
Association lists built by `alistSet` have unique keys, matching a dict. -/
def alistGet (l : List (String × JValue)) (k : String) : Option JValue :=
  (l.find? (fun p => p.1 = k)).map (·.2)

/-- Python dict assignment `d[k] = v`: overwrite in place if the key is
present (keeping its position), otherwise append at the end. -/
def alistSet (l : List (String × JValue)) (k : String) (v : JValue) :
    List (String × JValue) :=
  if (l.find? (fun p => p.1 = k)).isSome then
    l.map (fun p => if p.1 = k then (k, v) else p)
  else
    l ++ [(k, v)]

/-- `value.get(k)` on a JSON object; `none` when the key is absent
(Python `None`).  Only ever applied to dict-shaped values in the code. -/
def jGet (v : JValue) (k : String) : Option JValue :=
  match v with
  | .obj fields => alistGet fields k
  | _ => none

/-- `value.get(k, {})`: defaulting lookup used in the barcode-lookup and
config-snapshot chains. -/
def jGetD (v : JValue) (k : String) (d : JValue) : JValue :=
  (jGet v k).getD d

/-- Iteration over a JSON array (`for material in ...`). -/
def jItems : JValue → List JValue
  | .arr l => l
  | _ => []

/-- One reviewable unit, the dict built per prediction by `_load_data`
(flat-format transitions are carried in the same shape). -/
structure Transition where
  transition_id : String
  original_transition_id : String
  prediction_index : Option Nat
  action : JValue
  input_materials : JValue
  input_observations : JValue
  prediction : JValue
  deriving DecidableEq

/-- One comparison group of the `comparisons` input format: shared
action/input fields plus an ordered list of predictions. -/
structure Comparison where
  transition_id : String
  action : JValue
  input_materials : JValue
  input_observations : JValue
  predictions : List JValue
  deriving DecidableEq

/-- The parsed input dataset: `comparisons` when that key is present,
otherwise the optional flat `transitions` list, plus optional metadata. -/
structure Dataset where
  comparisons : Option (List Comparison)
  transitions : Option (List Transition)
  metadata : JValue
  deriving DecidableEq

/-- The transition dict built by `_load_data` for prediction `p` at index
`i` of comparison `c`. -/
def mkExtracted (c : Comparison) (i : Nat) (p : JValue) : Transition :=
  { transition_id := c.transition_id ++ "_" ++ toString i
    original_transition_id := c.transition_id
    prediction_index := some i
    action := c.action
    input_materials := c.input_materials
    input_observations := c.input_observations
    prediction := p }

/-- `_load_data` on one comparison group: one transition per prediction
whose `error` field is not truthy (`if not prediction.get('error')`). -/
def extractComparison (c : Comparison) : List Transition :=
  c.predictions.enum.filterMap fun ip =>
    if ((jGet ip.2 "error").getD .null).truthy then none
    else some (mkExtracted c ip.1 ip.2)

/-- `ValidationManager._load_data`: extract individual predictions from
comparison data when the `comparisons` key is present, otherwise fall back
to `data.get('transitions', [])`.  Returns the transition list and the
metadata (`data.get('metadata', {})`). -/
def loadData (d : Dataset) : List Transition × JValue :=
  match d.comparisons with
  | some comps => (comps.flatMap extractComparison, d.metadata)
  | none => (d.transitions.getD [], d.metadata)

/-- One entry of `_build_material_lookup`'s loop body: if the material has
both a `barcode` and a `name` field, store `lookup[barcode] = name`.
The lookup is keyed by strings: a non-string barcode key can never be
returned by `dict.get` when queried with the string scalars that
`_resolve_barcode_to_name` passes, and cannot collide with a string key,
so such dead entries are not modelled. -/
def addMaterialEntry (lookup : List (String × JValue)) (material : JValue) :
    List (String × JValue) :=
  match jGet material "barcode", jGet material "name" with
  | some (.str b), some n => alistSet lookup b n
  | _, _ => lookup

/-- `ValidationManager._build_material_lookup`: fold over all transitions,
collecting barcode-to-name pairs from `input_materials` (when truthy) and
from `prediction.prediction.new_materials`. -/
def buildMaterialLookup (transitions : List Transition) :
    List (String × JValue) :=
  transitions.foldl
    (fun lookup t =>
      let lookup1 :=
        if t.input_materials.truthy then
          (jItems t.input_materials).foldl addMaterialEntry lookup
        else lookup
      let predMats :=
        jItems (jGetD (jGetD t.prediction "prediction" (.obj []))
          "new_materials" (.arr []))
      predMats.foldl addMaterialEntry lookup1)
    []

mutual

/-- `ValidationManager._resolve_barcode_to_name`: recursively resolve
barcodes to names; strings are replaced by `lookup.get(value, value)`,
lists and dicts are rebuilt with resolved children, anything else is
returned unchanged. -/
def resolveBarcodeToName (lookup : List (String × JValue)) : JValue → JValue
  | .str s => (alistGet lookup s).getD (.str s)
  | .num n => .num n
  | .bool b => .bool b
  | .null => .null
  | .arr items => .arr (resolveList lookup items)
  | .obj fields => .obj (resolveObj lookup fields)

/-- The list comprehension `[resolve(item) for item in value]`. -/
def resolveList (lookup : List (String × JValue)) :
    List JValue → List JValue
  | [] => []
  | x :: xs => resolveBarcodeToName lookup x :: resolveList lookup xs

/-- The dict comprehension `{k: resolve(v) for k, v in value.items()}`;
keys are kept, values are resolved, order is preserved. -/
def resolveObj (lookup : List (String × JValue)) :
    List (String × JValue) → List (String × JValue)
  | [] => []
  | (k, v) :: xs => (k, resolveBarcodeToName lookup v) :: resolveObj lookup xs

end

/-- `ValidationManager._enhance_transition_with_names`: copy the
transition; when the action has a `parameters` dict, resolve each
parameter value and store the resolved dict under BOTH
`action['parameters']` and `action['parameters_display']`.  (When
`parameters` is not a dict Python would raise on `.items()`; no claim
exercises that case and it is left as the identity here.) -/
def enhanceTransitionWithNames (lookup : List (String × JValue))
    (t : Transition) : Transition :=
  match t.action with
  | .obj fields =>
      match alistGet fields "parameters" with
      | some (.obj pfields) =>
          let enhancedParams : JValue := .obj (resolveObj lookup pfields)
          { t with
            action := .obj (alistSet
              (alistSet fields "parameters" enhancedParams)
              "parameters_display" enhancedParams) }
      | some _ => t
      | none => t
  | _ => t

/-!  The `random` module.  The global Mersenne-Twister state is modelled
abstractly as a `Nat` stepped by a fixed linear congruential rule: every
claim depends only on the generator being a pure function of its state
and on `random.seed` resetting that state as a function of the seed
alone, never on the concrete bit stream. -/

/-- One step of the modelled generator state. -/
def rngStep (g : Nat) : Nat :=
  (1103515245 * g + 12345) % (2 ^ 31)

/-- `random.seed(s)`: reinitialise the global state from the seed alone. -/
def seedRng (s : Nat) : Nat := rngStep s

/-- `random._randbelow(n)`: draw a number in `[0, n)` (for `n > 0`),
advancing the generator state. -/
def randBelow (n : Nat) (g : Nat) : Nat × Nat :=
  let g' := rngStep g
  (g' % n, g')

/-- Swap the elements at positions `i` and `j` of a list (`x[i], x[j] =
x[j], x[i]`); identity when an index is out of range (never the case in
the shuffle loop, which keeps both indices below the length). -/
def listSwap {α : Type} (l : List α) (i j : Nat) : List α :=
  match l[i]?, l[j]? with
  | some a, some b => (l.set i b).set j a
  | _, _ => l

/-- The loop of CPython's `random.shuffle`:
`for i in reversed(range(1, len(x))): j = _randbelow(i + 1); swap x[i] x[j]`,
recursing on the loop variable `i`. -/
def shuffleFrom {α : Type} : Nat → List α → Nat → List α × Nat
  | 0, l, g => (l, g)
  | i + 1, l, g =>
      let jg := randBelow (i + 2) g
      shuffleFrom i (listSwap l (i + 1) jg.1) jg.2

/-- `random.shuffle(x)`: in-place Fisher-Yates over the whole list. -/
def shuffle {α : Type} (l : List α) (g : Nat) : List α × Nat :=
  shuffleFrom (l.length - 1) l g

/-- `ValidationManager._randomize_transitions`: when a seed is present the
global generator is reseeded first (making the result a function of the
seed and the input list alone); then `current_transitions` becomes a
shuffled copy of `transitions`. -/
def randomizeTransitions (transitions : List Transition) (seed : Option Nat)
    (g : Nat) : List Transition × Nat :=
  let g0 := match seed with
    | some s => seedRng s
    | none => g
  shuffle transitions g0

/-- One entry of the fixed `error_categories` vocabulary. -/
structure ErrorCategory where
  id : String
  label : String
  description : String
  deriving DecidableEq

/-- The fixed error-category vocabulary from `ValidationManager.__init__`. -/
def errorCategories : List ErrorCategory :=
  [⟨"materials_missing", "Missing Expected Materials",
    "Expected materials were not predicted"⟩,
   ⟨"materials_incorrect", "Incorrect Material Properties",
    "Material properties don't match expected values"⟩,
   ⟨"materials_extra", "Unexpected Materials",
    "Materials predicted that shouldn't exist"⟩,
   ⟨"observations_missing", "Missing Expected Observations",
    "Expected observations were not predicted"⟩,
   ⟨"observations_incorrect", "Incorrect Observation Values",
    "Observation values don't match expected results"⟩,
   ⟨"observations_extra", "Unexpected Observations",
    "Observations predicted that shouldn't occur"⟩,
   ⟨"timing_wrong", "Incorrect Timing",
    "Events predicted at wrong time points"⟩,
   ⟨"physical_impossible", "Physically Impossible",
    "Predictions violate physical laws or constraints"⟩,
   ⟨"reasoning_flawed", "Flawed Reasoning",
    "Logical errors in the model's reasoning"⟩,
   ⟨"context_ignored", "Context Ignored",
    "Model ignored important contextual information"⟩]

/-- One judgment record, as built by `save_validation`. -/
structure Validation where
  transition_id : String
  timestamp : String
  is_plausible : Bool
  error_categories : List String
  custom_error : String
  comments : String
  confidence : Option Int
  transition_data : Option Transition
  prediction_config : JValue
  deriving DecidableEq

/-- The parsed content of the durable session file.  The optional
`last_updated`, `completed_count` (key `completed_transitions`) and
`progress_percentage` fields are absent until the first
`_update_session_file`; `progress_percentage`, a Python float, is modelled
as an exact rational.  `random_seed` is the stored JSON value (the key is
always written by `_initialize_session_file`, so the `.get` default of 42
for a missing key is unreachable for files this program writes). -/
structure SessionFileData where
  session_id : String
  session_name : Option String
  random_seed : Option Nat
  start_time : String
  source_data_file : String
  total_transitions : Nat
  metadata : JValue
  error_categories : List ErrorCategory
  validations : List Validation
  last_updated : Option String
  completed_count : Option Nat
  progress_percentage : Option Rat
  deriving DecidableEq

/-- The mutable state of a `ValidationManager` instance, together with the
content of its durable session file (field `session_file`, standing for
what is on disk at the session file's path). -/
structure ManagerState where
  data_file : String
  session_name : Option String
  random_seed : Option Nat
  session_id : String
  transitions : List Transition
  current_transitions : List Transition
  completed_transitions : Finset String
  session_validations : List Validation
  error_categories : List ErrorCategory
  material_lookup : List (String × JValue)
  metadata : JValue
  session_file : SessionFileData
  deriving DecidableEq

/-- `ValidationManager.__init__` followed by `_load_data`,
`_build_material_lookup`, `_randomize_transitions` and
`_initialize_session_file`.  The two `datetime.now()` calls (filename
timestamp and `start_time`) are modelled by the one `timestamp`
parameter; `d` is the parsed content of `data_file`; `g` is the incoming
global generator state, returned advanced. -/
def initManager (dataFile : String) (sessionName : Option String)
    (randomSeed : Option Nat) (timestamp : String) (d : Dataset) (g : Nat) :
    ManagerState × Nat :=
  let sessionId := match sessionName with
    | some n => n ++ "_" ++ timestamp
    | none => timestamp
  let lm := loadData d
  let lookup := buildMaterialLookup lm.1
  let cg := randomizeTransitions lm.1 randomSeed g
  let file : SessionFileData :=
    { session_id := sessionId
      session_name := sessionName
      random_seed := randomSeed
      start_time := timestamp
      source_data_file := dataFile
      total_transitions := cg.1.length
      metadata := lm.2
      error_categories := errorCategories
      validations := []
      last_updated := none
      completed_count := none
      progress_percentage := none }
  ({ data_file := dataFile
     session_name := sessionName
     random_seed := randomSeed
     session_id := sessionId
     transitions := lm.1
     current_transitions := cg.1
     completed_transitions := ∅
     session_validations := []
     error_categories := errorCategories
     material_lookup := lookup
     metadata := lm.2
     session_file := file }, cg.2)

/-- `ValidationManager.resume_from_session` on an existing session file
whose parsed content is `file` (the `FileNotFoundError` paths for a
missing session file or missing data file are filesystem checks outside
the embedding).  Reconstructs `completed_transitions` from the stored
judgment list, re-extracts tasks from the dataset and re-runs the order
generator with the stored seed; the session file itself is not rewritten. -/
def resumeFromSession (file : SessionFileData) (dataFile : String)
    (d : Dataset) (g : Nat) : ManagerState × Nat :=
  let lm := loadData d
  let lookup := buildMaterialLookup lm.1
  let cg := randomizeTransitions lm.1 file.random_seed g
  ({ data_file := dataFile
     session_name := file.session_name
     random_seed := file.random_seed
     session_id := file.session_id
     transitions := lm.1
     current_transitions := cg.1
     completed_transitions :=
       (file.validations.map (·.transition_id)).toFinset
     session_validations := file.validations
     error_categories := file.error_categories
     material_lookup := lookup
     metadata := lm.2
     session_file := file }, cg.2)

/-- `ValidationManager.get_next_transition`: the first transition in
stored order whose id is not completed, enhanced with resolved names;
`none` when every transition is completed. -/
def getNextTransition (st : ManagerState) : Option Transition :=
  (st.current_transitions.find?
      (fun t => decide (t.transition_id ∉ st.completed_transitions))).map
    (enhanceTransitionWithNames st.material_lookup)

/-- The result shape of `get_progress`.  `remaining` is an integer
difference, matching Python's unbounded subtraction. -/
structure Progress where
  completed : Nat
  total : Nat
  remaining : Int
  deriving DecidableEq

/-- `ValidationManager.get_progress`. -/
def getProgress (st : ManagerState) : Progress :=
  { completed := st.completed_transitions.card
    total := st.current_transitions.length
    remaining := (st.current_transitions.length : Int) -
      (st.completed_transitions.card : Int) }

/-- `ValidationManager._update_session_file`: re-read the stored record,
replace its judgment list with the in-memory one, and refresh
`last_updated`, the completed count and the progress percentage. -/
def updateSessionFile (st : ManagerState) (now : String) : ManagerState :=
  { st with session_file :=
    { st.session_file with
      validations := st.session_validations
      last_updated := some now
      completed_count := some st.completed_transitions.card
      progress_percentage := some
        (if st.current_transitions.length ≠ 0 then
          (st.completed_transitions.card : Rat) /
            (st.current_transitions.length : Rat) * 100
        else 0) } }

/-- The judgment record `save_validation` builds, including the
`prediction_config` snapshot
(`transition_data.get('prediction', {}).get('config', {})`). -/
def mkValidation (transitionId now : String) (isPlausible : Bool)
    (errorCats : List String) (customError comments : String)
    (confidence : Option Int) (transitionData : Option Transition) :
    Validation :=
  { transition_id := transitionId
    timestamp := now
    is_plausible := isPlausible
    error_categories := errorCats
    custom_error := customError
    comments := comments
    confidence := confidence
    transition_data := transitionData
    prediction_config := match transitionData with
      | some t => jGetD t.prediction "config" (.obj [])
      | none => .obj [] }

/-- `ValidationManager.save_validation`: append the judgment to the
in-memory list, rewrite the durable record, then mark the id completed.
`writeOk` models whether the durable write in `_update_session_file`
succeeds; on failure the raised error propagates (`Except.error`) after
the in-memory append, before the completed set is touched (a partially
written disk file is not modelled: the stored record is left unchanged). -/
def saveValidation (st : ManagerState) (transitionId now : String)
    (isPlausible : Bool) (errorCats : List String)
    (customError comments : String) (confidence : Option Int)
    (transitionData : Option Transition) (writeOk : Bool) :
    ManagerState × Except Unit Unit :=
  let v := mkValidation transitionId now isPlausible errorCats customError
    comments confidence transitionData
  let st1 := { st with session_validations := st.session_validations ++ [v] }
  if writeOk then
    let st2 := updateSessionFile st1 now
    ({ st2 with
        completed_transitions := insert transitionId st2.completed_transitions },
      .ok ())
  else (st1, .error ())

/-- The `/skip` route body: `manager.completed_transitions.add(id)` with
no membership check and no durable record. -/
def recordSkip (st : ManagerState) (transitionId : String) : ManagerState :=
  { st with completed_transitions :=
      insert transitionId st.completed_transitions }

mutual

/-- All string scalars occurring in a JSON value (the positions
`_resolve_barcode_to_name` can ever look up). -/
def stringScalars : JValue → List String
  | .str s => [s]
  | .num _ => []
  | .bool _ => []
  | .null => []
  | .arr items => stringScalarsList items
  | .obj fields => stringScalarsObj fields

/-- String scalars of a JSON array's elements. -/
def stringScalarsList : List JValue → List String
  | [] => []
  | x :: xs => stringScalars x ++ stringScalarsList xs

/-- String scalars of a JSON object's values. -/
def stringScalarsObj : List (String × JValue) → List String
  | [] => []
  | (_, v) :: xs => stringScalars v ++ stringScalarsObj xs

end

/-- No string scalar of `v` is a key of the lookup table. -/
def noKnownId (lookup : List (String × JValue)) (v : JValue) : Prop :=
  ∀ s ∈ stringScalars v, alistGet lookup s = none

instance (lookup : List (String × JValue)) (v : JValue) :
    Decidable (noKnownId lookup v) :=
  List.decidableBAll _ _

/-- A small comparison-format dataset used for concrete evaluations: one
group with two predictions, the second carrying a truthy `error` marker. -/
def exampleDataset : Dataset :=
  { comparisons := some
      [{ transition_id := "t1"
         action := .obj [("action_type", .str "mix"),
           ("parameters", .obj [("source", .str "BC1")])]
         input_materials := .arr [.obj [("barcode", .str "BC1"),
           ("name", .str "Water")]]
         input_observations := .arr []
         predictions := [.obj [("outcome", .str "ok")],
           .obj [("error", .str "failed")]] }]
    transitions := none
    metadata := .null }

/-- A judgment for the one task of `exampleDataset`. -/
def exampleValidation : Validation :=
  mkValidation "t1_0" "ts1" true [] "" "" none none

/-- A stored session file for `exampleDataset` holding one judgment and a
chosen persisted completed count. -/
def exampleSessionFile (count : Option Nat) : SessionFileData :=
  { session_id := "s"
    session_name := none
    random_seed := some 7
    start_time := "ts0"
    source_data_file := "data.json"
    total_transitions := 1
    metadata := .null
    error_categories := errorCategories
    validations := [exampleValidation]
    last_updated := none
    completed_count := count
    progress_percentage := none }

/-- A freshly initialised manager over `exampleDataset`. -/
def exampleManager : ManagerState :=
  (initManager "data.json" none (some 7) "ts0" exampleDataset 0).1

/-- A dataset with neither a `comparisons` key nor a `transitions` key
(no recognized shape). -/
def emptyDataset : Dataset :=
  { comparisons := none, transitions := none, metadata := .null }

/-- A freshly initialised manager over a dataset with neither recognized
shape (so with no tasks at all). -/
def emptyManager : ManagerState :=
  (initManager "data.json" none (some 42) "ts0" emptyDataset 0).1

/-- Structural induction over JSON values, recursing through the nested
lists (the recursor the nested inductive does not generate on its own). -/
def jvalueInduction {P : JValue → Prop}
    (hstr : ∀ s, P (.str s)) (hnum : ∀ n, P (.num n))
    (hbool : ∀ b, P (.bool b)) (hnull : P .null)
    (harr : ∀ l, (∀ x ∈ l, P x) → P (.arr l))
    (hobj : ∀ l, (∀ kv ∈ l, P kv.2) → P (.obj l)) :
    ∀ v, P v
  | .str s => hstr s
  | .num n => hnum n
  | .bool b => hbool b
  | .null => hnull
  | .arr l => harr l (fun x hx =>
      jvalueInduction hstr hnum hbool hnull harr hobj x)
  | .obj l => hobj l (fun kv hkv =>
      jvalueInduction hstr hnum hbool hnull harr hobj kv.2)
termination_by v => sizeOf v
decreasing_by
  · have := List.sizeOf_lt_of_mem hx
    simp only [JValue.arr.sizeOf_spec]
    omega
  · have h1 := List.sizeOf_lt_of_mem hkv
    rcases kv with ⟨k, v2⟩
    simp only [JValue.obj.sizeOf_spec, Prod.mk.sizeOf_spec] at h1 ⊢
    omega

/-! Permutation lemmas for the shuffle loop. -/

/-- Writing `x` over the position that held `b` and carrying `b` to the
front permutes a cons of the original list. -/
theorem cons_set_perm {α : Type} (x b : α) :
    ∀ (t : List α) (k : Nat), t[k]? = some b →
      List.Perm (b :: t.set k x) (x :: t) := by
  intro t
  induction t with
  | nil => intro k h; simp at h
  | cons y t' ih =>
    intro k h
    cases k with
    | zero =>
      simp at h
      subst h
      exact List.Perm.swap x y t'
    | succ k' =>
      simp at h
      exact ((List.Perm.swap y b _).trans ((ih k' h).cons y)).trans
        (List.Perm.swap x y t')

/-- A swap of two positions permutes the list. -/
theorem listSwap_perm {α : Type} :
    ∀ (l : List α) (i j : Nat), List.Perm (listSwap l i j) l := by
  intro l
  induction l with
  | nil => intro i j; simp [listSwap]
  | cons x t ih =>
    intro i j
    cases i with
    | zero =>
      cases j with
      | zero => simp [listSwap]
      | succ j' =>
        cases hj : t[j']? with
        | none => simp [listSwap, hj]
        | some b => simpa [listSwap, hj] using cons_set_perm x b t j' hj
    | succ i' =>
      cases j with
      | zero =>
        cases hi : t[i']? with
        | none => simp [listSwap, hi]
        | some a => simpa [listSwap, hi] using cons_set_perm x a t i' hi
      | succ j' =>
        have hstep : listSwap (x :: t) (i' + 1) (j' + 1) =
            x :: listSwap t i' j' := by
          cases hi : t[i']? <;> cases hj : t[j']? <;>
            simp [listSwap, hi, hj]
        rw [hstep]
        exact (ih i' j').cons x

/-- The shuffle loop permutes its input, whatever the generator state. -/
theorem shuffleFrom_perm {α : Type} :
    ∀ (i : Nat) (l : List α) (g : Nat),
      List.Perm (shuffleFrom i l g).1 l := by
  intro i
  induction i with
  | zero => intro l g; simp [shuffleFrom]
  | succ i ih =>
    intro l g
    exact (ih (listSwap l (i + 1) (randBelow (i + 2) g).1)
      (randBelow (i + 2) g).2).trans
      (listSwap_perm l (i + 1) (randBelow (i + 2) g).1)

/-- `random.shuffle` permutes its input. -/
theorem shuffle_perm {α : Type} (l : List α) (g : Nat) :
    List.Perm (shuffle l g).1 l :=
  shuffleFrom_perm _ l g

/-- Display enhancement never touches the transition id. -/
theorem enhance_transition_id (lookup : List (String × JValue))
    (t : Transition) :
    (enhanceTransitionWithNames lookup t).transition_id = t.transition_id := by
  unfold enhanceTransitionWithNames
  split
  · split
    · rfl
    · rfl
    · rfl
  · rfl

/-- A transition returned by `get_next_transition` is never one whose id
is in the completed set. -/
theorem getNext_not_completed (st : ManagerState) (t : Transition)
    (h : getNextTransition st = some t) :
    t.transition_id ∉ st.completed_transitions := by
  unfold getNextTransition at h
  cases hf : st.current_transitions.find?
      (fun u => decide (u.transition_id ∉ st.completed_transitions)) with
  | none => rw [hf] at h; simp at h
  | some u =>
    rw [hf] at h
    simp only [Option.map_some'] at h
    injection h with h
    have hu := List.find?_some hf
    rw [← h, enhance_transition_id]
    simpa using hu

/-- Skipping an already-completed task id leaves `progress()` unchanged
(the `/skip` route adds to a set, and set insertion of a member is the
identity). -/
theorem skip_idempotent_progress (st : ManagerState) (tid : String)
    (h : tid ∈ st.completed_transitions) :
    getProgress (recordSkip st tid) = getProgress st := by
  simp [recordSkip, getProgress, Finset.insert_eq_self.mpr h]

/-- Witness: skipping the task id `x` twice in a row from the empty
session leaves progress unchanged the second time. -/
theorem skip_idempotent_progress_witness :
    "x" ∈ (recordSkip emptyManager "x").completed_transitions ∧
      getProgress (recordSkip (recordSkip emptyManager "x") "x") =
        getProgress (recordSkip emptyManager "x") :=
  ⟨by decide, skip_idempotent_progress (recordSkip emptyManager "x") "x"
    (by decide)⟩

/-- `record_skip` performs no membership validation: an id absent from
the served task list is still added to the completed set, growing
`progress().completed` past the number of genuinely completed tasks;
concretely, skipping a ghost id in an empty session drives
`progress().remaining` to `-1`. -/
theorem skip_no_membership_validation (st : ManagerState) (tid : String)
    (h1 : tid ∉ st.current_transitions.map (·.transition_id))
    (h2 : tid ∉ st.completed_transitions) :
    (recordSkip st tid).completed_transitions =
        insert tid st.completed_transitions
    ∧ (getProgress (recordSkip st tid)).completed =
        (getProgress st).completed + 1
    ∧ (getProgress (recordSkip st tid)).total = (getProgress st).total
    ∧ (getProgress (recordSkip st tid)).remaining =
        (getProgress st).remaining - 1
    ∧ (getProgress (recordSkip emptyManager "ghost")).remaining = -1 := by
  refine ⟨rfl, ?_, rfl, ?_, by decide⟩
  · simp [recordSkip, getProgress, Finset.card_insert_of_not_mem h2]
  · simp only [recordSkip, getProgress, Finset.card_insert_of_not_mem h2]
    push_cast
    ring

/-- Witness: skipping a ghost id absent from an empty session's task
list adds it to the completed set and drops remaining below zero. -/
theorem skip_no_membership_validation_witness :
    ("ghost" ∉ emptyManager.current_transitions.map (·.transition_id)
        ∧ "ghost" ∉ emptyManager.completed_transitions)
    ∧ ((recordSkip emptyManager "ghost").completed_transitions =
        insert "ghost" emptyManager.completed_transitions
      ∧ (getProgress (recordSkip emptyManager "ghost")).completed =
        (getProgress emptyManager).completed + 1
      ∧ (getProgress (recordSkip emptyManager "ghost")).total =
        (getProgress emptyManager).total
      ∧ (getProgress (recordSkip emptyManager "ghost")).remaining =
        (getProgress emptyManager).remaining - 1
      ∧ (getProgress (recordSkip emptyManager "ghost")).remaining = -1) :=
  ⟨⟨by decide, by decide⟩,
    skip_no_membership_validation emptyManager "ghost" (by decide) (by decide)⟩

/-- With a seed present, `_randomize_transitions` is a deterministic
function of the seed and the extracted task list — the incoming global
generator state is irrelevant — and its output is a permutation of the
input, so the served order has the same multiset of transitions (and of
transition ids) with no duplicates and no omissions. -/
theorem randomize_deterministic_and_permutation (T : List Transition)
    (s : Nat) (g₁ g₂ : Nat) :
    (randomizeTransitions T (some s) g₁).1 =
        (randomizeTransitions T (some s) g₂).1
    ∧ List.Perm (randomizeTransitions T (some s) g₁).1 T
    ∧ List.Perm ((randomizeTransitions T (some s) g₁).1.map
        (·.transition_id)) (T.map (·.transition_id)) :=
  ⟨rfl, shuffle_perm T (seedRng s), (shuffle_perm T (seedRng s)).map _⟩

/-- `_enhance_transition_with_names` overwrites the raw `parameters`
field of the returned task with the resolved copy: the stored transition
keeps the raw barcode `BC1`, but the task `next()` hands out carries the
resolved name `Water` under BOTH `parameters` and `parameters_display`,
so the raw identifiers are not preserved in the served (and hence
snapshotted) task. -/
theorem next_task_raw_parameters_resolved :
    exampleManager.current_transitions.map
        (fun t => jGet t.action "parameters") =
      [some (.obj [("source", .str "BC1")])]
    ∧ (getNextTransition exampleManager).map
        (fun t => (jGet t.action "parameters",
          jGet t.action "parameters_display")) =
      some (some (.obj [("source", .str "Water")]),
        some (.obj [("source", .str "Water")])) := by
  constructor
  · rfl
  · rfl

/-- When the durable write in `save_validation` fails, the error
propagates to the caller, the completed set and the stored record are
untouched (so the task is still served by `next()`), but the judgment
HAS already been appended to the in-memory judgment list. -/
theorem save_failure_behavior (st : ManagerState) (tid now : String)
    (p : Bool) (cats : List String) (ce cm : String) (cf : Option Int)
    (td : Option Transition) :
    (saveValidation st tid now p cats ce cm cf td false).2 = .error ()
    ∧ (saveValidation st tid now p cats ce cm cf td false).1.completed_transitions
        = st.completed_transitions
    ∧ (saveValidation st tid now p cats ce cm cf td false).1.session_file
        = st.session_file
    ∧ (saveValidation st tid now p cats ce cm cf td false).1.session_validations
        = st.session_validations ++ [mkValidation tid now p cats ce cm cf td]
    ∧ getNextTransition (saveValidation st tid now p cats ce cm cf td false).1
        = getNextTransition st :=
  ⟨rfl, rfl, rfl, rfl, rfl⟩

/-- After a failed durable write the judgment remains in the in-memory
list, and the next successful write persists it to the stored record:
a trace of the unrecorded judgment does remain in session state. -/
theorem save_failure_leaves_trace :
    (saveValidation exampleManager "t1_0" "ts1" true [] "" "" none none
        false).2 = .error ()
    ∧ (saveValidation exampleManager "t1_0" "ts1" true [] "" "" none none
        false).1.session_validations = [exampleValidation]
    ∧ exampleValidation ∈
        (saveValidation
          (saveValidation exampleManager "t1_0" "ts1" true [] "" "" none none
            false).1
          "t1_0b" "ts2" true [] "" "" none none true).1.session_file.validations
    := by
  refine ⟨rfl, rfl, ?_⟩
  decide

/-- A dataset with neither a `comparisons` key nor a `transitions` key
loads successfully as an empty task list and bare metadata — no error of
any kind is raised on this path. -/
theorem load_unrecognized_shape_succeeds :
    loadData emptyDataset = ([], .null) := rfl

/-- For every dataset with neither recognized shape, extraction succeeds
and produces the empty task list (`data.get('transitions', [])`). -/
theorem load_unrecognized_shape_empty (d : Dataset)
    (h1 : d.comparisons = none) (h2 : d.transitions = none) :
    (loadData d).1 = [] := by
  simp [loadData, h1, h2]

/-- Witness for the empty-extraction behavior at a concrete dataset. -/
theorem load_unrecognized_shape_empty_witness :
    emptyDataset.comparisons = none
    ∧ emptyDataset.transitions = none
    ∧ (loadData emptyDataset).1 = [] :=
  ⟨rfl, rfl, load_unrecognized_shape_empty emptyDataset rfl rfl⟩

/-- Resuming from a session file whose persisted completed count (5)
disagrees with the judgment list (1 entry) behaves exactly as resuming
from the consistent file: the mismatch changes nothing but the stored
blob carried along, no check or warning of any kind happens, and the
reconstructed set drives progress (completed is 1, not 5). -/
theorem resume_ignores_persisted_count :
    (resumeFromSession (exampleSessionFile (some 5)) "data.json"
        exampleDataset 0).1.completed_transitions = {"t1_0"}
    ∧ getProgress (resumeFromSession (exampleSessionFile (some 5)) "data.json"
        exampleDataset 0).1 = ⟨1, 1, 0⟩
    ∧ (resumeFromSession (exampleSessionFile (some 5)) "data.json"
        exampleDataset 0).1 =
      { (resumeFromSession (exampleSessionFile (some 1)) "data.json"
          exampleDataset 0).1 with
        session_file := exampleSessionFile (some 5) } := by
  refine ⟨by decide, by decide, ?_⟩
  rfl

/-- `resume_from_session` reconstructs the completed set from the stored
judgment list and never reads the persisted completed count: changing
that count changes nothing in the resumed state beyond the stored blob
it carries. -/
theorem resume_count_not_checked (file : SessionFileData) (c : Option Nat)
    (dataFile : String) (d : Dataset) (g : Nat) :
    (resumeFromSession file dataFile d g).1.completed_transitions =
        (file.validations.map (·.transition_id)).toFinset
    ∧ (resumeFromSession { file with completed_count := c } dataFile d g).1
        = { (resumeFromSession file dataFile d g).1 with
            session_file := { file with completed_count := c } } :=
  ⟨rfl, rfl⟩

/-- The recursive list walk is the list comprehension. -/
theorem resolveList_eq_map (lookup : List (String × JValue))
    (l : List JValue) :
    resolveList lookup l = l.map (resolveBarcodeToName lookup) := by
  induction l with
  | nil => rfl
  | cons x xs ih => simp [resolveList, ih]

/-- The recursive dict walk is the dict comprehension: keys and their
order are kept, values are resolved. -/
theorem resolveObj_eq_map (lookup : List (String × JValue))
    (l : List (String × JValue)) :
    resolveObj lookup l =
      l.map (fun kv => (kv.1, resolveBarcodeToName lookup kv.2)) := by
  induction l with
  | nil => rfl
  | cons kv xs ih =>
    rcases kv with ⟨k, v⟩
    simp [resolveObj, ih]

/-- Membership in the collected string scalars of an array. -/
theorem mem_stringScalarsList {s : String} {l : List JValue} :
    s ∈ stringScalarsList l ↔ ∃ x ∈ l, s ∈ stringScalars x := by
  induction l with
  | nil => simp [stringScalarsList]
  | cons x xs ih => simp [stringScalarsList, ih]

/-- Membership in the collected string scalars of an object's values. -/
theorem mem_stringScalarsObj {s : String} {l : List (String × JValue)} :
    s ∈ stringScalarsObj l ↔ ∃ kv ∈ l, s ∈ stringScalars kv.2 := by
  induction l with
  | nil => simp [stringScalarsObj]
  | cons kv xs ih =>
    rcases kv with ⟨k, v⟩
    simp [stringScalarsObj, ih]

/-- Resolving a value none of whose string scalars is a key of the
lookup table is the identity (a deep-equal copy). -/
theorem resolve_noKnownId (lookup : List (String × JValue)) :
    ∀ v, noKnownId lookup v → resolveBarcodeToName lookup v = v := by
  refine jvalueInduction ?_ ?_ ?_ ?_ ?_ ?_
  · intro s h
    have hs : alistGet lookup s = none := h s (by simp [stringScalars])
    simp [resolveBarcodeToName, hs]
  · intro n _; rfl
  · intro b _; rfl
  · intro _; rfl
  · intro l ih h
    simp only [resolveBarcodeToName, resolveList_eq_map, JValue.arr.injEq]
    have hmap : ∀ x ∈ l, resolveBarcodeToName lookup x = x := by
      intro x hx
      refine ih x hx ?_
      intro s hs
      exact h s (by
        simp only [stringScalars]
        exact mem_stringScalarsList.mpr ⟨x, hx, hs⟩)
    calc l.map (resolveBarcodeToName lookup) = l.map id :=
          List.map_congr_left (fun x hx => hmap x hx)
      _ = l := List.map_id l
  · intro l ih h
    simp only [resolveBarcodeToName, resolveObj_eq_map, JValue.obj.injEq]
    have hmap : ∀ kv ∈ l, resolveBarcodeToName lookup kv.2 = kv.2 := by
      intro kv hkv
      refine ih kv hkv ?_
      intro s hs
      exact h s (by
        simp only [stringScalars]
        exact mem_stringScalarsObj.mpr ⟨kv, hkv, hs⟩)
    calc l.map (fun kv => (kv.1, resolveBarcodeToName lookup kv.2))
          = l.map id := List.map_congr_left (fun kv hkv => by
            rcases kv with ⟨k, v⟩
            simp [hmap ⟨k, v⟩ hkv])
      _ = l := List.map_id l

/-- Name resolution: a structure with no known identifier resolves to a
deep-equal copy; every string scalar (at any depth) is replaced by
`table.get(value, value)`; sequences and mappings are rebuilt from their
resolved children in order, with mapping keys and lengths preserved. -/
theorem resolve_structure (lookup : List (String × JValue)) (v : JValue) :
    (noKnownId lookup v → resolveBarcodeToName lookup v = v)
    ∧ (∀ s, resolveBarcodeToName lookup (.str s) =
        (alistGet lookup s).getD (.str s))
    ∧ (∀ items, resolveBarcodeToName lookup (.arr items) =
        .arr (items.map (resolveBarcodeToName lookup)))
    ∧ (∀ fields, resolveBarcodeToName lookup (.obj fields) =
        .obj (fields.map (fun kv => (kv.1, resolveBarcodeToName lookup kv.2))))
    ∧ (∀ fields, (resolveObj lookup fields).map Prod.fst =
        fields.map Prod.fst)
    ∧ (∀ items, (resolveList lookup items).length = items.length) := by
  refine ⟨resolve_noKnownId lookup v, fun s => rfl, ?_, ?_, ?_, ?_⟩
  · intro items
    simp [resolveBarcodeToName, resolveList_eq_map]
  · intro fields
    simp [resolveBarcodeToName, resolveObj_eq_map]
  · intro fields
    simp [resolveObj_eq_map]
  · intro items
    simp [resolveList_eq_map]

/-- A transition is extracted from a comparison exactly when it is built
from a prediction (at its index) whose `error` field is not truthy. -/
theorem mem_extractComparison (c : Comparison) (t : Transition) :
    t ∈ extractComparison c ↔
      ∃ i p, c.predictions[i]? = some p
        ∧ ((jGet p "error").getD .null).truthy = false
        ∧ t = mkExtracted c i p := by
  unfold extractComparison
  rw [List.mem_filterMap]
  constructor
  · rintro ⟨⟨i, p⟩, hmem, hout⟩
    rw [List.mk_mem_enum_iff_getElem?] at hmem
    by_cases herr : ((jGet p "error").getD .null).truthy = true
    · simp [herr] at hout
    · simp only [Bool.not_eq_true] at herr
      simp only [herr, if_false, Bool.false_eq_true] at hout
      exact ⟨i, p, hmem, herr, (Option.some.injEq _ _ ▸ hout).symm⟩
  · rintro ⟨i, p, hmem, herr, ht⟩
    refine ⟨(i, p), ?_, ?_⟩
    · rw [List.mk_mem_enum_iff_getElem?]
      exact hmem
    · simp [herr, ht]

/-- The filtered enumeration keeps one output per kept element, whatever
the start index. -/
theorem filterMap_enumFrom_length (c : Comparison) :
    ∀ (ps : List JValue) (n : Nat),
      ((List.enumFrom n ps).filterMap (fun ip =>
        if ((jGet ip.2 "error").getD .null).truthy then none
        else some (mkExtracted c ip.1 ip.2))).length
      = (ps.filter
          (fun p => !((jGet p "error").getD .null).truthy)).length := by
  intro ps
  induction ps with
  | nil => intro n; rfl
  | cons p ps ih =>
    intro n
    by_cases herr : ((jGet p "error").getD .null).truthy = true
    · simp [List.filterMap_cons, List.filter_cons, herr, ih]
    · simp only [Bool.not_eq_true] at herr
      simp [List.filterMap_cons, List.filter_cons, herr, ih]

/-- One task is extracted per non-erroring prediction of a comparison. -/
theorem extractComparison_length (c : Comparison) :
    (extractComparison c).length =
      (c.predictions.filter
        (fun p => !((jGet p "error").getD .null).truthy)).length := by
  unfold extractComparison
  rw [List.enum]
  exact filterMap_enumFrom_length c c.predictions 0

/-- Extraction from comparison-format data: every extracted task comes
from a prediction without a truthy error marker and carries exactly the
stated fields (id `{group}_{index}`, the group id, and the group's shared
action/input fields, with the prediction as payload); conversely every
such prediction yields its task, one task per clean prediction. -/
theorem extraction_characterization (d : Dataset) (comps : List Comparison)
    (h : d.comparisons = some comps) :
    (∀ t ∈ (loadData d).1, ∃ c, c ∈ comps ∧ ∃ i p,
        c.predictions[i]? = some p
        ∧ ((jGet p "error").getD .null).truthy = false
        ∧ t.transition_id = c.transition_id ++ "_" ++ toString i
        ∧ t.original_transition_id = c.transition_id
        ∧ t.prediction_index = some i
        ∧ t.action = c.action
        ∧ t.input_materials = c.input_materials
        ∧ t.input_observations = c.input_observations
        ∧ t.prediction = p)
    ∧ (∀ c ∈ comps, ∀ i p, c.predictions[i]? = some p →
        ((jGet p "error").getD .null).truthy = false →
        mkExtracted c i p ∈ (loadData d).1)
    ∧ (∀ c ∈ comps, (extractComparison c).length =
        (c.predictions.filter
          (fun p => !((jGet p "error").getD .null).truthy)).length) := by
  have hload : (loadData d).1 = comps.flatMap extractComparison := by
    simp [loadData, h]
  refine ⟨?_, ?_, fun c _ => extractComparison_length c⟩
  · intro t ht
    rw [hload, List.mem_flatMap] at ht
    obtain ⟨c, hc, htc⟩ := ht
    obtain ⟨i, p, hip, herr, hte⟩ := (mem_extractComparison c t).mp htc
    subst hte
    exact ⟨c, hc, i, p, hip, herr, rfl, rfl, rfl, rfl, rfl, rfl, rfl⟩
  · intro c hc i p hip herr
    rw [hload, List.mem_flatMap]
    exact ⟨c, hc, (mem_extractComparison c _).mpr ⟨i, p, hip, herr, rfl⟩⟩

/-- Witness: on the example dataset (one group, two predictions, the
second marked with an error), extraction yields exactly the task of the
clean prediction. -/
theorem extraction_characterization_witness :
    exampleDataset.comparisons = some exampleDataset.comparisons.get!
    ∧ (∀ t ∈ (loadData exampleDataset).1, ∃ c,
        c ∈ exampleDataset.comparisons.get! ∧ ∃ i p,
        c.predictions[i]? = some p
        ∧ ((jGet p "error").getD .null).truthy = false
        ∧ t.transition_id = c.transition_id ++ "_" ++ toString i
        ∧ t.original_transition_id = c.transition_id
        ∧ t.prediction_index = some i
        ∧ t.action = c.action
        ∧ t.input_materials = c.input_materials
        ∧ t.input_observations = c.input_observations
        ∧ t.prediction = p)
    ∧ (loadData exampleDataset).1.length = 1 :=
  ⟨rfl, (extraction_characterization exampleDataset _ rfl).1, by decide⟩

/-- Resume fidelity: initialise a session with seed `s`, record
judgments for two distinct task ids `A` and `B` (both durable writes
succeeding), then resume from the persisted record.  The resumed state's
completed set is exactly the set of `transition_id` fields of the stored
judgment list (which holds the two judgments), the serving order is the
order generator re-run with the stored seed over the re-extracted task
list, `next()` never returns a task whose id is in the reconstructed
set, and `progress().completed = 2`. -/
theorem resume_fidelity (d : Dataset) (s g g' : Nat) (nm : Option String)
    (dataFile ts tsA tsB A B : String) (pA pB : Bool)
    (eA eB : List String) (cA cB mA mB : String) (cfA cfB : Option Int)
    (tdA tdB : Option Transition) (hAB : A ≠ B) :
    let st0 := (initManager dataFile nm (some s) ts d g).1
    let stA := (saveValidation st0 A tsA pA eA cA mA cfA tdA true).1
    let stB := (saveValidation stA B tsB pB eB cB mB cfB tdB true).1
    let r := (resumeFromSession stB.session_file dataFile d g').1
    stB.session_file.validations =
        [mkValidation A tsA pA eA cA mA cfA tdA,
          mkValidation B tsB pB eB cB mB cfB tdB]
    ∧ r.completed_transitions =
        (stB.session_file.validations.map (·.transition_id)).toFinset
    ∧ r.current_transitions =
        (randomizeTransitions (loadData d).1 (some s) g').1
    ∧ (∀ t, getNextTransition r = some t →
        t.transition_id ∉ r.completed_transitions)
    ∧ (getProgress r).completed = 2 := by
  intro st0 stA stB r
  refine ⟨rfl, rfl, rfl, fun t ht => getNext_not_completed r t ht, ?_⟩
  show (([A, B] : List String).toFinset).card = 2
  rw [List.toFinset_cons, List.toFinset_cons, List.toFinset_nil]
  rw [Finset.card_insert_of_not_mem (by simp [hAB])]
  simp

/-- Witness for resume fidelity at concrete inputs (ids `a` and `b`). -/
theorem resume_fidelity_witness :
    ("a" : String) ≠ "b"
    ∧ (let st0 := (initManager "d.json" none (some 7) "t0" exampleDataset 0).1
       let stA := (saveValidation st0 "a" "t1" true [] "" "" none none true).1
       let stB := (saveValidation stA "b" "t2" true [] "" "" none none true).1
       let r := (resumeFromSession stB.session_file "d.json"
         exampleDataset 0).1
       stB.session_file.validations =
           [mkValidation "a" "t1" true [] "" "" none none,
             mkValidation "b" "t2" true [] "" "" none none]
       ∧ r.completed_transitions =
           (stB.session_file.validations.map (·.transition_id)).toFinset
       ∧ r.current_transitions =
           (randomizeTransitions (loadData exampleDataset).1 (some 7) 0).1
       ∧ (∀ t, getNextTransition r = some t →
           t.transition_id ∉ r.completed_transitions)
       ∧ (getProgress r).completed = 2) :=
  ⟨by decide,
    resume_fidelity exampleDataset 7 0 0 none "d.json" "t0" "t1" "t2" "a" "b"
      true true [] [] "" "" "" "" none none none none (by decide)⟩

/-- Witness: a nested structure whose strings are unknown to the table
resolves to itself. -/
theorem resolve_structure_witness :
    noKnownId [("BC1", JValue.str "Water")]
        (.arr [.str "XYZ", .obj [("k", .num 3)]])
    ∧ resolveBarcodeToName [("BC1", JValue.str "Water")]
        (.arr [.str "XYZ", .obj [("k", .num 3)]])
      = .arr [.str "XYZ", .obj [("k", .num 3)]] :=
  ⟨by decide,
    (resolve_structure [("BC1", JValue.str "Water")]
      (.arr [.str "XYZ", .obj [("k", .num 3)]])).1 (by decide)⟩
